import Mathlib

/-!
Verification of the screenshot review classifier and the watch/coalescer
loop of the App-Store-Connect CLI screenshots subsystem.

The watch loop (coalescer, cycle runner, event filter) is embedded from the
Go source in `internal/screenshots`.  The classifier (`GenerateReview`) and
the thumbnail URL normalizer ship in a source file that is not part of the
checkout, so those definitions are modelled from the specification and the
expectations of `review_test.go`, as marked on each definition.
-/

/-- One image file found by a directory walk: its path relative to the walked
root as slash-separated segments, plus its pixel dimensions. -/
structure ScanFile where
  segments : List String
  width : Nat
  height : Nat
deriving DecidableEq, Repr

/-- The (locale, device, screenshotID) triple identifying one screenshot slot.
Locale and device may be empty depending on directory depth. -/
structure ScreenshotKey where
  locale : String
  device : String
  screenshotID : String
deriving DecidableEq, Repr

/-- Go `filepath.Ext` on a single path element: the suffix starting at the
final dot, empty when the element has no dot.  Written over the character
list so it reduces in the kernel. -/
def goExt (name : String) : String :=
  let rev := name.data.reverse
  if rev.any (fun c => c == '.') then
    ⟨('.' :: (rev.takeWhile (fun c => c != '.')).reverse)⟩
  else ""

/-- Drops the Go `filepath.Ext` suffix from a path element: everything from
the final dot onward, the whole name when it has no dot. -/
def stripExt (name : String) : String :=
  let rev := name.data.reverse
  match rev.dropWhile (fun c => c != '.') with
  | [] => name
  | _ :: rest => ⟨rest.reverse⟩

/-- Modelled from the spec: the `GenerateReview` source file is absent from
the checkout.  Directory-depth key parsing per spec section 4.1: the last
1 / 2 / 3 relative-path segments yield id, device+id, or locale+device+id,
and the screenshot id is the final segment minus its extension. -/
def screenshotKeyOf (segments : List String) : ScreenshotKey :=
  match segments.reverse with
  | [] => ⟨"", "", ""⟩
  | [idFile] => ⟨"", "", stripExt idFile⟩
  | [idFile, device] => ⟨"", device, stripExt idFile⟩
  | idFile :: device :: locale :: _ => ⟨locale, device, stripExt idFile⟩

/-- Modelled from the spec: the named App Store size-preset table is part of
the absent `GenerateReview` source; this table carries the presets exercised
by `review_test.go` (1320x2868 is a valid size, 1000x1000 is not). -/
def appStoreSizePresets : List (String × Nat × Nat) :=
  [ ("iPhone 6.9in Portrait", 1320, 2868),
    ("iPhone 6.9in Landscape", 2868, 1320),
    ("iPad 13in Portrait", 2064, 2752),
    ("iPad 13in Landscape", 2752, 2064) ]

/-- The named size presets whose declared dimensions equal the image's. -/
def displayTypesFor (width height : Nat) : List String :=
  (appStoreSizePresets.filter (fun p => p.2.1 == width && p.2.2 == height)).map
    (fun p => p.1)

/-- The screenshot key of one raw asset, from its relative path. -/
def rawKeyOf (f : ScanFile) : ScreenshotKey := screenshotKeyOf f.segments

/-- Modelled from the spec: a raw asset is a fallback candidate for a framed
key when the screenshot ids agree and locale and device each either agree or
are absent on one of the two sides (spec section 4.1 together with
`TestGenerateReview_WritesManifestAndHTML`, where a device-free raw capture
attaches to a framed entry that carries locale and device). -/
def compatibleRaw (fk : ScreenshotKey) (r : ScanFile) : Bool :=
  let rk := rawKeyOf r
  rk.screenshotID == fk.screenshotID &&
    (rk.locale == "" || fk.locale == "" || rk.locale == fk.locale) &&
    (rk.device == "" || fk.device == "" || rk.device == fk.device)

/-- `some` of the single element of a singleton list, `none` otherwise: the
ambiguity policy resolving a non-unique fallback candidate set as absence. -/
def uniqueOrNone : List ScanFile → Option ScanFile
  | [r] => some r
  | _ => none

/-- Modelled from the spec: raw matching for one framed key — an exact key
match wins; otherwise a fallback candidate is attached only when it is
unique, so an ambiguous screenshot id is resolved as absence. -/
def matchRaw (fk : ScreenshotKey) (raws : List ScanFile) : Option ScanFile :=
  match raws.filter (fun r => rawKeyOf r == fk) with
  | r :: _ => some r
  | [] => uniqueOrNone (raws.filter (compatibleRaw fk))

/-- The four-way readiness classification of one review entry. -/
inductive ReviewStatus
  | ready
  | missingRaw
  | invalidSize
  | missingAndInvalid
deriving DecidableEq, Repr

/-- Modelled from the spec: status is a deterministic function of raw
presence and size validity. -/
def classifyStatus (hasRaw validSize : Bool) : ReviewStatus :=
  match hasRaw, validSize with
  | true, true => .ready
  | false, true => .missingRaw
  | true, false => .invalidSize
  | false, false => .missingAndInvalid

/-- Modelled from the spec: ApprovalStore.load — a missing approvals file
yields the empty set rather than an error.  The argument is the parsed
contents of `<outputDir>/approvals.json`, `none` when the file is absent. -/
def loadApprovalSet (fileContents : Option (List String)) : List String :=
  fileContents.getD []

/-- The serialized approval key `locale|device|screenshotID`. -/
def approvalKey (k : ScreenshotKey) : String :=
  k.locale ++ "|" ++ k.device ++ "|" ++ k.screenshotID

/-- Joins relative path segments with slashes. -/
def relPath (segments : List String) : String := String.intercalate "/" segments

/-- Joins a directory and a relative path. -/
def joinDir (dir rel : String) : String := dir ++ "/" ++ rel

/-- One classified review entry of the manifest. -/
structure ReviewEntry where
  screenshotID : String
  locale : String
  device : String
  rawPath : String
  rawRelative : String
  framedPath : String
  framedRelative : String
  status : ReviewStatus
  approved : Bool
  validAppStoreSize : Bool
  displayTypes : List String
deriving DecidableEq, Repr

/-- Modelled from the spec: classification of one framed capture — key from
path depth, display types from the preset table, raw attachment through
`matchRaw`, approval through the serialized key. -/
def mkEntry (rawDir framedDir : String) (raws : List ScanFile)
    (approvals : List String) (f : ScanFile) : ReviewEntry :=
  let k := screenshotKeyOf f.segments
  let types := displayTypesFor f.width f.height
  let valid := !types.isEmpty
  let rawMatch := matchRaw k raws
  { screenshotID := k.screenshotID
    locale := k.locale
    device := k.device
    rawPath := match rawMatch with
      | some r => joinDir rawDir (relPath r.segments)
      | none => ""
    rawRelative := match rawMatch with
      | some r => relPath r.segments
      | none => ""
    framedPath := joinDir framedDir (relPath f.segments)
    framedRelative := relPath f.segments
    status := classifyStatus rawMatch.isSome valid
    approved := approvals.contains (approvalKey k)
    validAppStoreSize := valid
    displayTypes := types }

/-- The manifest summary block. -/
structure ReviewSummary where
  total : Nat
  ready : Nat
  missingRaw : Nat
  invalidSize : Nat
  approved : Nat
  pendingApproval : Nat
deriving DecidableEq, Repr

/-- Whether a status denotes an entry without a raw match. -/
def isMissingRawStatus : ReviewStatus → Bool
  | .missingRaw => true
  | .missingAndInvalid => true
  | _ => false

/-- Whether a status denotes an entry with an invalid App Store size. -/
def isInvalidSizeStatus : ReviewStatus → Bool
  | .invalidSize => true
  | .missingAndInvalid => true
  | _ => false

/-- Modelled from the spec and `review_test.go`: the summary's `missingRaw`
and `invalidSize` fields count every entry lacking a raw match and every
entry of invalid size respectively, so a `missingAndInvalid` entry counts in
both (the test expects total=2, ready=1, missingRaw=1, invalidSize=1 for one
ready and one missing-and-invalid entry). -/
def summarize (entries : List ReviewEntry) : ReviewSummary :=
  let approvedCount := entries.countP (fun e => e.approved)
  { total := entries.length
    ready := entries.countP (fun e => e.status == .ready)
    missingRaw := entries.countP (fun e => isMissingRawStatus e.status)
    invalidSize := entries.countP (fun e => isInvalidSizeStatus e.status)
    approved := approvedCount
    pendingApproval := entries.length - approvedCount }

/-- The review manifest: entries plus summary. -/
structure ReviewManifest where
  entries : List ReviewEntry
  summary : ReviewSummary
deriving DecidableEq, Repr

/-- Input of one `GenerateReview` call with file-system access abstracted:
`framedListing` is the recursive walk of `framedDir` (`none` when the
directory does not exist or cannot be read), `rawListing` the walk of
`rawDir` (empty when no raw directory is given), and `approvalsFile` the
parsed contents of `<outputDir>/approvals.json` (`none` when absent). -/
structure ReviewInput where
  rawDir : String
  framedDir : String
  outputDir : String
  framedListing : Option (List ScanFile)
  rawListing : List ScanFile
  approvalsFile : Option (List String)
deriving DecidableEq, Repr

/-- Output of one successful `GenerateReview` call. -/
structure ReviewOutput where
  manifest : ReviewManifest
  manifestPath : String
  htmlPath : String
  htmlTitle : String
  ready : Nat
deriving DecidableEq, Repr

/-- Modelled from the spec: `GenerateReview` (classifier plus manifest
builder) — its source file is absent from the checkout; behavior is
reconstructed from spec section 4.1 and the expectations of
`review_test.go`.  An unreadable framed directory fails with a
"read framed directory" error; otherwise every framed capture becomes one
entry and the summary aggregates the entries. -/
def GenerateReview (inp : ReviewInput) : Except String ReviewOutput :=
  match inp.framedListing with
  | none => .error ("read framed directory" ++ (" " ++ inp.framedDir))
  | some framed =>
    let approvals := loadApprovalSet inp.approvalsFile
    let entries := framed.map (mkEntry inp.rawDir inp.framedDir inp.rawListing approvals)
    let summary := summarize entries
    .ok { manifest := { entries := entries, summary := summary }
          manifestPath := inp.outputDir ++ "/manifest.json"
          htmlPath := inp.outputDir ++ "/report.html"
          htmlTitle := "ASC Shots Review"
          ready := summary.ready }

/-- Modelled from the spec: whether a path begins with a drive-letter
pattern such as `C:/`. -/
def isDriveLetterPath (p : String) : Bool :=
  match p.data with
  | c :: d :: s :: _ => c.isAlpha && d == ':' && s == '/'
  | _ => false

/-- Modelled from the spec: thumbnail path-to-URL normalization — the
`pathOnlyURLPath` source is absent from the checkout; a drive-letter path is
prefixed with `/`, anything else passes through unchanged
(`TestPathOnlyURLPath_PrefixesWindowsDrivePath`). -/
def pathOnlyURLPath (p : String) : String :=
  if isDriveLetterPath p then "/" ++ p else p

/-! ## Watch loop (embedded from the Go source in `internal/screenshots`) -/

/-- One per-item outcome of a generation cycle (`WatchCycleResult`). -/
structure WatchCycleResult where
  name : String
  path : String
  success : Bool
  error : String
deriving DecidableEq, Repr

/-- The review request resolved once up front by `WatchAndRegenerate`. -/
structure WatchReviewRequest where
  framedDir : String
  rawDir : String
  outputDir : String
deriving DecidableEq, Repr

/-- One line written to the diagnostic stream by `runGeneration`. -/
inductive LogLine
  | generationFailure (msg : String)
  | itemSuccess (name path : String)
  | itemFailure (name msg : String)
  | reviewFailure (msg : String)
  | reviewSuccess (htmlPath : String) (ready : Nat)
deriving DecidableEq, Repr

/-- Observable effects of one `runGeneration` call: whether `GenerateReview`
was invoked, the two arguments of the single `onCycle` callback invocation,
and the diagnostic log lines. -/
structure CycleEffects where
  reviewCalled : Bool
  onCycleResults : Option (List WatchCycleResult)
  onCycleError : Option String
  logs : List LogLine
deriving DecidableEq, Repr

/-- Shallow embedding of `runGeneration`: `gen` is the outcome of the
`runKoubouGenerate` subprocess call (process-level error or per-item
results), `reviewReq` the optional review request, and `review` the
behavior of the `GenerateReview` call under the current file system. -/
def runGeneration (gen : Except String (List WatchCycleResult))
    (reviewReq : Option WatchReviewRequest)
    (review : WatchReviewRequest → Except String ReviewOutput) : CycleEffects :=
  match gen with
  | .error e =>
    { reviewCalled := false
      onCycleResults := none
      onCycleError := some e
      logs := [.generationFailure e] }
  | .ok results =>
    let itemLogs := results.map (fun r =>
      if r.success then LogLine.itemSuccess r.name r.path
      else LogLine.itemFailure r.name r.error)
    let anySuccess := results.any (fun r => r.success)
    let reviewStep : Bool × List LogLine :=
      match reviewReq with
      | some req =>
        if anySuccess then
          match review req with
          | .error msg => (true, [LogLine.reviewFailure msg])
          | .ok out => (true, [LogLine.reviewSuccess out.htmlPath out.ready])
        else (false, [])
      | none => (false, [])
    { reviewCalled := reviewStep.1
      onCycleResults := some results
      onCycleError := none
      logs := itemLogs ++ reviewStep.2 }

/-- The bitmask of one fsnotify event. -/
structure FsEventOp where
  create : Bool
  write : Bool
  remove : Bool
  rename : Bool
  chmod : Bool
deriving DecidableEq, Repr

/-- One fsnotify event; the path is modelled as a resolved absolute
segment list, so the `filepath.Abs` step of the Go source is the identity
and its error branch is unrepresentable. -/
structure FsEvent where
  name : List String
  op : FsEventOp
deriving DecidableEq, Repr

/-- `strings.ToLower(filepath.Ext(path))` of the event path: the lowered
extension of the final segment. -/
def eventExt (name : List String) : String :=
  ⟨(goExt (name.getLastD "")).data.map Char.toLower⟩

/-- The image extensions accepted by the watch filter. -/
def imageExtensions : List String := [".png", ".jpg", ".jpeg"]

/-- Shallow embedding of `isRelevantChange`: a create/write/rename on the
config file itself, or on an image file whose immediate parent directory is
a tracked asset directory. -/
def isRelevantChange (event : FsEvent) (configPath : List String)
    (assetDirs : List (List String)) : Bool :=
  if !(event.op.write || event.op.create || event.op.rename) then false
  else if event.name == configPath then true
  else
    let ext := eventExt event.name
    if !(imageExtensions.contains ext) then false
    else assetDirs.contains event.name.dropLast

/-- The spec's event-filter sentence, stated independently of the embedded
code for comparison: create/write/rename, and either the config path itself
or an image extension with the immediate parent among the asset dirs. -/
def RelevantChangeSpec (event : FsEvent) (configPath : List String)
    (assetDirs : List (List String)) : Prop :=
  (event.op.create = true ∨ event.op.write = true ∨ event.op.rename = true) ∧
  (event.name = configPath ∨
    (eventExt event.name ∈ imageExtensions ∧ event.name.dropLast ∈ assetDirs))

/-! ## The generation coalescer as a transition system

`generationCoalescer.Trigger` guards its `running`/`pending` flags with one
mutex and calls `run` outside the critical section.  A configuration counts
the threads at each program point of `Trigger` (the mutex makes each flag
block atomic), the two flags, and the number of `run` invocations started. -/

/-- One configuration of the coalescer system: `nStart` threads about to
enter `Trigger`, `nLoop` holding the runner role about to call `run`,
`nRun` inside `run`, `nCheck` about to re-check `pending`, plus the two
flags and the count of cycles (calls of `run`) started so far. -/
structure CoalescerState where
  nStart : Nat
  nLoop : Nat
  nRun : Nat
  nCheck : Nat
  running : Bool
  pending : Bool
  cycles : Nat
deriving DecidableEq, Repr

/-- The configuration after a `Trigger` entry observes `running = true`:
the thread records itself in the `pending` flag and returns. -/
def recordPending (s : CoalescerState) : CoalescerState :=
  { s with nStart := s.nStart - 1, pending := true }

/-- Atomic steps of `generationCoalescer.Trigger`, one per mutex-guarded
block or `run` boundary of the Go source. -/
inductive CoalescerStep : CoalescerState → CoalescerState → Prop
  | triggerBusy (s : CoalescerState) (h : 0 < s.nStart) (hr : s.running = true) :
      CoalescerStep s (recordPending s)
  | triggerFree (s : CoalescerState) (h : 0 < s.nStart) (hr : s.running = false) :
      CoalescerStep s
        { s with nStart := s.nStart - 1, nLoop := s.nLoop + 1, running := true }
  | runBegin (s : CoalescerState) (h : 0 < s.nLoop) :
      CoalescerStep s
        { s with nLoop := s.nLoop - 1, nRun := s.nRun + 1, cycles := s.cycles + 1 }
  | runEnd (s : CoalescerState) (h : 0 < s.nRun) :
      CoalescerStep s { s with nRun := s.nRun - 1, nCheck := s.nCheck + 1 }
  | checkPending (s : CoalescerState) (h : 0 < s.nCheck) (hp : s.pending = true) :
      CoalescerStep s
        { s with nCheck := s.nCheck - 1, nLoop := s.nLoop + 1, pending := false }
  | checkIdle (s : CoalescerState) (h : 0 < s.nCheck) (hp : s.pending = false) :
      CoalescerStep s { s with nCheck := s.nCheck - 1, running := false }

/-- Reachability in zero or more coalescer steps. -/
def CoalescerReaches : CoalescerState → CoalescerState → Prop :=
  Relation.ReflTransGen CoalescerStep

/-- The idle system with `n` Trigger calls about to run. -/
def coalescerInit (n : Nat) : CoalescerState := ⟨n, 0, 0, 0, false, false, 0⟩

/-- A configuration where every Trigger call has returned. -/
def CoalescerDone (s : CoalescerState) : Prop :=
  s.nStart = 0 ∧ s.nLoop = 0 ∧ s.nRun = 0 ∧ s.nCheck = 0

/-- A burst: one cycle in flight (`cycles` counts it already) and `n`
Trigger calls arriving while it runs. -/
def burstStart (n c : Nat) : CoalescerState := ⟨n, 0, 1, 0, true, false, c⟩

/-- The configuration once every burst trigger has fired while the cycle was
still in flight: all recorded in `pending`, the cycle still running. -/
def afterBurst (c : Nat) : CoalescerState := ⟨0, 0, 1, 0, true, true, c⟩

/-- The coalescer invariant: the `running` flag counts the threads holding
the runner role, and `pending` is only ever set while a runner exists. -/
def CoalescerInv (s : CoalescerState) : Prop :=
  s.nLoop + s.nRun + s.nCheck = (if s.running then 1 else 0) ∧
  (s.pending = true → s.running = true)

/-- Bounds future cycles: started cycles plus runners about to start a
cycle plus one follow-up per recorded pending flag. -/
def coalescerPotential (s : CoalescerState) : Nat :=
  s.cycles + s.nLoop + (if s.pending then 1 else 0)

/-! ## Concrete inputs mirroring the scenarios of `review_test.go` -/

/-- The directory contents of `TestGenerateReview_WritesManifestAndHTML`:
two framed captures under `en/iPhone_Air`, one raw capture at the raw root,
one approval. -/
def manifestTestInput : ReviewInput :=
  { rawDir := "/base/raw"
    framedDir := "/base/framed"
    outputDir := "/base/review"
    framedListing := some
      [ ⟨["en", "iPhone_Air", "home.png"], 1320, 2868⟩,
        ⟨["en", "iPhone_Air", "details.png"], 1000, 1000⟩ ]
    rawListing := [⟨["home.png"], 1320, 2868⟩]
    approvalsFile := some ["en|iPhone_Air|home"] }

/-- A framed capture carrying locale and device, with the only raw capture
sitting at the raw root (no locale, no device): the attachment made by
`TestGenerateReview_WritesManifestAndHTML` that is not an exact key match. -/
def crossDepthInput : ReviewInput :=
  { rawDir := "/w/raw"
    framedDir := "/w/framed"
    outputDir := "/w/review"
    framedListing := some [⟨["en", "iPhone_Air", "home.png"], 1320, 2868⟩]
    rawListing := [⟨["home.png"], 1320, 2868⟩]
    approvalsFile := none }

/-- A one-capture input whose single entry is approved through `||home`. -/
def approvalsTestInput : ReviewInput :=
  { rawDir := "/a/raw"
    framedDir := "/a/framed"
    outputDir := "/a/review"
    framedListing := some [⟨["home.png"], 1320, 2868⟩]
    rawListing := []
    approvalsFile := some ["||home"] }

/-- The entry `GenerateReview` produces for `approvalsTestInput`. -/
def approvalsTestEntry : ReviewEntry :=
  { screenshotID := "home"
    locale := ""
    device := ""
    rawPath := ""
    rawRelative := ""
    framedPath := "/a/framed/home.png"
    framedRelative := "home.png"
    status := .missingRaw
    approved := true
    validAppStoreSize := true
    displayTypes := ["iPhone 6.9in Portrait"] }

/-- The output `GenerateReview` produces for `approvalsTestInput`. -/
def approvalsTestOutput : ReviewOutput :=
  { manifest :=
      { entries := [approvalsTestEntry]
        summary :=
          { total := 1, ready := 0, missingRaw := 1, invalidSize := 0,
            approved := 1, pendingApproval := 0 } }
    manifestPath := "/a/review/manifest.json"
    htmlPath := "/a/review/report.html"
    htmlTitle := "ASC Shots Review"
    ready := 0 }

/-- An input whose framed directory cannot be read. -/
def missingFramedInput : ReviewInput :=
  { rawDir := ""
    framedDir := "/base/missing"
    outputDir := "/base/review"
    framedListing := none
    rawListing := []
    approvalsFile := none }

/-- Two framed captures, in scan order A. -/
def framedScanA : List ScanFile :=
  [⟨["en", "iPhone_Air", "home.png"], 1320, 2868⟩,
   ⟨["en", "iPhone_Air", "details.png"], 1000, 1000⟩]

/-- The same framed captures, in the other scan order. -/
def framedScanB : List ScanFile :=
  [⟨["en", "iPhone_Air", "details.png"], 1000, 1000⟩,
   ⟨["en", "iPhone_Air", "home.png"], 1320, 2868⟩]

/-- Two raw captures with distinct keys, in scan order A. -/
def rawScanA : List ScanFile :=
  [⟨["en", "iPhone_Air", "home.png"], 1320, 2868⟩,
   ⟨["en", "iPhone_Air", "details.png"], 1000, 1000⟩]

/-- The same raw captures, in the other scan order. -/
def rawScanB : List ScanFile :=
  [⟨["en", "iPhone_Air", "details.png"], 1000, 1000⟩,
   ⟨["en", "iPhone_Air", "home.png"], 1320, 2868⟩]

/-- A generation outcome with one failed and one successful item. -/
def mixedCycleResults : List WatchCycleResult :=
  [⟨"home", "/out/home.png", true, ""⟩,
   ⟨"details", "", false, "render failed"⟩]

/-- A generation outcome whose items all failed. -/
def allFailedCycleResults : List WatchCycleResult :=
  [⟨"home", "", false, "render failed"⟩]

/-- A resolved review request for the watch loop. -/
def watchReviewReq : WatchReviewRequest :=
  { framedDir := "/w/framed", rawDir := "/w/raw", outputDir := "/w/review" }

/-- A `GenerateReview` behavior that fails with a fixed message. -/
def failingReview : WatchReviewRequest → Except String ReviewOutput :=
  fun _ => .error "review broke"

/-- A `GenerateReview` behavior that succeeds with a fixed output. -/
def succeedingReview : WatchReviewRequest → Except String ReviewOutput :=
  fun _ => .ok approvalsTestOutput

/-- The output `GenerateReview` produces for `manifestTestInput`. -/
def manifestTestOutput : ReviewOutput :=
  { manifest :=
      { entries :=
          [ { screenshotID := "home"
              locale := "en"
              device := "iPhone_Air"
              rawPath := "/base/raw/home.png"
              rawRelative := "home.png"
              framedPath := "/base/framed/en/iPhone_Air/home.png"
              framedRelative := "en/iPhone_Air/home.png"
              status := .ready
              approved := true
              validAppStoreSize := true
              displayTypes := ["iPhone 6.9in Portrait"] },
            { screenshotID := "details"
              locale := "en"
              device := "iPhone_Air"
              rawPath := ""
              rawRelative := ""
              framedPath := "/base/framed/en/iPhone_Air/details.png"
              framedRelative := "en/iPhone_Air/details.png"
              status := .missingAndInvalid
              approved := false
              validAppStoreSize := false
              displayTypes := [] } ]
        summary :=
          { total := 2, ready := 1, missingRaw := 1, invalidSize := 1,
            approved := 1, pendingApproval := 1 } }
    manifestPath := "/base/review/manifest.json"
    htmlPath := "/base/review/report.html"
    htmlTitle := "ASC Shots Review"
    ready := 1 }

/-- The entry `GenerateReview` produces for `crossDepthInput`: the raw
capture at the raw root is attached although its key differs from the
framed entry's key. -/
def crossDepthEntry : ReviewEntry :=
  { screenshotID := "home"
    locale := "en"
    device := "iPhone_Air"
    rawPath := "/w/raw/home.png"
    rawRelative := "home.png"
    framedPath := "/w/framed/en/iPhone_Air/home.png"
    framedRelative := "en/iPhone_Air/home.png"
    status := .ready
    approved := false
    validAppStoreSize := true
    displayTypes := ["iPhone 6.9in Portrait"] }

/-- The output `GenerateReview` produces for `crossDepthInput`. -/
def crossDepthOutput : ReviewOutput :=
  { manifest :=
      { entries := [crossDepthEntry]
        summary :=
          { total := 1, ready := 1, missingRaw := 0, invalidSize := 0,
            approved := 0, pendingApproval := 1 } }
    manifestPath := "/w/review/manifest.json"
    htmlPath := "/w/review/report.html"
    htmlTitle := "ASC Shots Review"
    ready := 1 }

/-- The raw walk of `TestGenerateReview_DoesNotFallbackRawWhenScreenshotIDIsAmbiguous`:
the same screenshot id under three raw devices. -/
def ambiguousRawScan : List ScanFile :=
  [⟨["devA", "home.png"], 1320, 2868⟩,
   ⟨["devB", "home.png"], 1320, 2868⟩,
   ⟨["devC", "home.png"], 1320, 2868⟩]

/-- Two tiny framed captures, scan order A. -/
def tinyFramedA : List ScanFile := [⟨["a.png"], 1, 1⟩, ⟨["b.png"], 2, 2⟩]

/-- The same tiny framed captures, scan order B. -/
def tinyFramedB : List ScanFile := [⟨["b.png"], 2, 2⟩, ⟨["a.png"], 1, 1⟩]

/-- The tiny entry for `a.png`. -/
def tinyEntryA : ReviewEntry :=
  { screenshotID := "a", locale := "", device := "", rawPath := "",
    rawRelative := "", framedPath := "/t/framed/a.png", framedRelative := "a.png",
    status := .missingAndInvalid, approved := false, validAppStoreSize := false,
    displayTypes := [] }

/-- The tiny entry for `b.png`. -/
def tinyEntryB : ReviewEntry :=
  { screenshotID := "b", locale := "", device := "", rawPath := "",
    rawRelative := "", framedPath := "/t/framed/b.png", framedRelative := "b.png",
    status := .missingAndInvalid, approved := false, validAppStoreSize := false,
    displayTypes := [] }

/-- The tiny summary shared by both scan orders. -/
def tinySummary : ReviewSummary :=
  { total := 2, ready := 0, missingRaw := 2, invalidSize := 2,
    approved := 0, pendingApproval := 2 }

/-- The output for tiny scan order A. -/
def tinyOutputA : ReviewOutput :=
  { manifest := { entries := [tinyEntryA, tinyEntryB], summary := tinySummary }
    manifestPath := "/t/rev/manifest.json", htmlPath := "/t/rev/report.html",
    htmlTitle := "ASC Shots Review", ready := 0 }

/-- The output for tiny scan order B. -/
def tinyOutputB : ReviewOutput :=
  { manifest := { entries := [tinyEntryB, tinyEntryA], summary := tinySummary }
    manifestPath := "/t/rev/manifest.json", htmlPath := "/t/rev/report.html",
    htmlTitle := "ASC Shots Review", ready := 0 }

/-! ## Theorems -/

/-- C9: `pathOnlyURLPath` prefixes a drive-letter-pattern path such as
`C:/...` with `/` and returns a POSIX absolute path unchanged; in
particular `C:/Users/dev/screenshots/home.png` maps to
`/C:/Users/dev/screenshots/home.png` and `/tmp/screenshots/home.png` maps
to itself. -/
theorem pathOnlyURLPath_normalization :
    (∀ p, isDriveLetterPath p = true → pathOnlyURLPath p = "/" ++ p) ∧
    (∀ p, p.data.head? = some '/' → pathOnlyURLPath p = p) ∧
    pathOnlyURLPath "C:/Users/dev/screenshots/home.png"
      = "/C:/Users/dev/screenshots/home.png" ∧
    pathOnlyURLPath "/tmp/screenshots/home.png" = "/tmp/screenshots/home.png" := by
  refine ⟨?_, ?_, by decide, by decide⟩
  · intro p h
    simp [pathOnlyURLPath, h]
  · intro p h
    have hslash : Char.isAlpha '/' = false := by decide
    have hfalse : isDriveLetterPath p = false := by
      rcases hd : p.data with _ | ⟨c, rest⟩
      · simp [isDriveLetterPath, hd]
      · have hc : c = '/' := by
          rw [hd] at h
          simpa using h
        rcases rest with _ | ⟨d, rest2⟩
        · simp [isDriveLetterPath, hd]
        · rcases rest2 with _ | ⟨s, t⟩
          · simp [isDriveLetterPath, hd]
          · simp [isDriveLetterPath, hd, hc, hslash]
    simp [pathOnlyURLPath, hfalse]

/-- Witness for C9 at two fresh concrete paths. -/
theorem pathOnlyURLPath_normalization_witness :
    pathOnlyURLPath "D:/shots/a.png" = "/D:/shots/a.png" ∧
    pathOnlyURLPath "/var/shots/a.png" = "/var/shots/a.png" :=
  ⟨pathOnlyURLPath_normalization.1 "D:/shots/a.png" (by decide),
   pathOnlyURLPath_normalization.2.1 "/var/shots/a.png" (by decide)⟩

/-- C6: when the framed directory does not exist or is unreadable,
`GenerateReview` returns an error whose message contains (here: begins
with) "read framed directory", and no output is produced. -/
theorem GenerateReview_requires_framed_directory :
    ∀ inp : ReviewInput, inp.framedListing = none →
      GenerateReview inp
        = Except.error ("read framed directory" ++ (" " ++ inp.framedDir)) ∧
      ∀ out, GenerateReview inp ≠ Except.ok out := by
  intro inp h
  constructor
  · simp [GenerateReview, h]
  · intro out hc
    simp [GenerateReview, h] at hc

/-- Witness for C6 at a concrete unreadable framed directory. -/
theorem GenerateReview_requires_framed_directory_witness :
    GenerateReview missingFramedInput
      = Except.error ("read framed directory" ++ (" " ++ "/base/missing")) :=
  (GenerateReview_requires_framed_directory missingFramedInput rfl).1

/-- C7: the approval set comes from the approvals file under the output
directory, an absent file yields the empty set rather than an error, and an
entry is approved exactly when its serialized `locale|device|screenshotID`
key is in the loaded set. -/
theorem GenerateReview_approval_semantics :
    ∀ inp out, GenerateReview inp = Except.ok out →
      (inp.approvalsFile = none → loadApprovalSet inp.approvalsFile = []) ∧
      ∀ e ∈ out.manifest.entries,
        (e.approved = true ↔
          (e.locale ++ "|" ++ e.device ++ "|" ++ e.screenshotID) ∈
            loadApprovalSet inp.approvalsFile) := by
  intro inp out h
  constructor
  · intro hn
    simp [loadApprovalSet, hn]
  · cases hL : inp.framedListing with
    | none => simp [GenerateReview, hL] at h
    | some framed =>
      simp only [GenerateReview, hL] at h
      cases h
      intro e he
      rw [List.mem_map] at he
      obtain ⟨f, _, rfl⟩ := he
      exact List.elem_iff

/-- Witness for C7 at a concrete input whose single entry is approved. -/
theorem GenerateReview_approval_semantics_witness :
    approvalsTestEntry.approved = true ↔
      (approvalsTestEntry.locale ++ "|" ++ approvalsTestEntry.device ++ "|" ++
        approvalsTestEntry.screenshotID) ∈
        loadApprovalSet approvalsTestInput.approvalsFile :=
  (GenerateReview_approval_semantics approvalsTestInput approvalsTestOutput
      (by rfl)).2 approvalsTestEntry (by decide)

/-- Splits a count over the four review statuses: every entry falls in
exactly one status class. -/
theorem countP_status_partition (l : List ReviewEntry) :
    l.countP (fun e => e.status == ReviewStatus.ready)
      + l.countP (fun e => e.status == ReviewStatus.missingRaw)
      + l.countP (fun e => e.status == ReviewStatus.invalidSize)
      + l.countP (fun e => e.status == ReviewStatus.missingAndInvalid)
      = l.length := by
  induction l with
  | nil => rfl
  | cons e t ih =>
    cases hs : e.status <;>
      simp [List.countP_cons, hs] <;> omega

/-- The attribute count of raw-missing entries splits over the two statuses
that lack a raw match. -/
theorem countP_missing_raw_split (l : List ReviewEntry) :
    l.countP (fun e => isMissingRawStatus e.status)
      = l.countP (fun e => e.status == ReviewStatus.missingRaw)
        + l.countP (fun e => e.status == ReviewStatus.missingAndInvalid) := by
  induction l with
  | nil => rfl
  | cons e t ih =>
    cases hs : e.status <;>
      simp [List.countP_cons, hs, isMissingRawStatus] at ih ⊢ <;> omega

/-- The attribute count of size-invalid entries splits over the two statuses
with an invalid size. -/
theorem countP_invalid_size_split (l : List ReviewEntry) :
    l.countP (fun e => isInvalidSizeStatus e.status)
      = l.countP (fun e => e.status == ReviewStatus.invalidSize)
        + l.countP (fun e => e.status == ReviewStatus.missingAndInvalid) := by
  induction l with
  | nil => rfl
  | cons e t ih =>
    cases hs : e.status <;>
      simp [List.countP_cons, hs, isInvalidSizeStatus] at ih ⊢ <;> omega

/-- C1 (amended): every entry's status is one of ready, missing_raw,
invalid_size, missing_and_invalid, and the counts of entries per status sum
to the summary's total; the summary's ready field is the ready-status count,
but its missingRaw and invalidSize fields each also count the
missing_and_invalid entries (they are attribute counts, not status counts),
so the summary's own fields overlap instead of partitioning the total. -/
theorem GenerateReview_status_partition :
    ∀ inp out, GenerateReview inp = Except.ok out →
      (∀ e ∈ out.manifest.entries,
        e.status = ReviewStatus.ready ∨ e.status = ReviewStatus.missingRaw ∨
        e.status = ReviewStatus.invalidSize ∨
        e.status = ReviewStatus.missingAndInvalid) ∧
      out.manifest.entries.countP (fun e => e.status == ReviewStatus.ready)
        + out.manifest.entries.countP (fun e => e.status == ReviewStatus.missingRaw)
        + out.manifest.entries.countP (fun e => e.status == ReviewStatus.invalidSize)
        + out.manifest.entries.countP (fun e => e.status == ReviewStatus.missingAndInvalid)
        = out.manifest.summary.total ∧
      out.manifest.summary.ready
        = out.manifest.entries.countP (fun e => e.status == ReviewStatus.ready) ∧
      out.manifest.summary.missingRaw
        = out.manifest.entries.countP (fun e => e.status == ReviewStatus.missingRaw)
          + out.manifest.entries.countP
              (fun e => e.status == ReviewStatus.missingAndInvalid) ∧
      out.manifest.summary.invalidSize
        = out.manifest.entries.countP (fun e => e.status == ReviewStatus.invalidSize)
          + out.manifest.entries.countP
              (fun e => e.status == ReviewStatus.missingAndInvalid) := by
  intro inp out h
  cases hL : inp.framedListing with
  | none => simp [GenerateReview, hL] at h
  | some framed =>
    simp only [GenerateReview, hL] at h
    cases h
    refine ⟨?_, ?_, rfl, ?_, ?_⟩
    · intro e _
      cases e.status <;> simp
    · exact countP_status_partition _
    · exact countP_missing_raw_split _
    · exact countP_invalid_size_split _

/-- Witness for C1's amended theorem at the manifest-test input. -/
theorem GenerateReview_status_partition_witness :
    manifestTestOutput.manifest.entries.countP (fun e => e.status == ReviewStatus.ready)
      + manifestTestOutput.manifest.entries.countP (fun e => e.status == ReviewStatus.missingRaw)
      + manifestTestOutput.manifest.entries.countP (fun e => e.status == ReviewStatus.invalidSize)
      + manifestTestOutput.manifest.entries.countP (fun e => e.status == ReviewStatus.missingAndInvalid)
      = manifestTestOutput.manifest.summary.total :=
  (GenerateReview_status_partition manifestTestInput manifestTestOutput (by rfl)).2.1

/-- C1 counterexample: on the directory contents of
`TestGenerateReview_WritesManifestAndHTML` the summary's ready, missingRaw
and invalidSize fields are each 1 and the total is 2, and the only fourth
count available — the number of missing_and_invalid entries — is also 1, so
the four counts sum to 4, not to the total: the claim as stated is false. -/
theorem GenerateReview_summary_sum_counterexample :
    GenerateReview manifestTestInput = Except.ok manifestTestOutput ∧
    manifestTestOutput.manifest.summary.total = 2 ∧
    manifestTestOutput.manifest.summary.ready = 1 ∧
    manifestTestOutput.manifest.summary.missingRaw = 1 ∧
    manifestTestOutput.manifest.summary.invalidSize = 1 ∧
    manifestTestOutput.manifest.entries.countP
      (fun e => e.status == ReviewStatus.missingAndInvalid) = 1 ∧
    manifestTestOutput.manifest.summary.ready
      + manifestTestOutput.manifest.summary.missingRaw
      + manifestTestOutput.manifest.summary.invalidSize
      + manifestTestOutput.manifest.entries.countP
          (fun e => e.status == ReviewStatus.missingAndInvalid)
      ≠ manifestTestOutput.manifest.summary.total :=
  ⟨by rfl, by decide, by decide, by decide, by decide, by decide, by decide⟩

/-- A list holding two distinct elements has length at least two. -/
theorem two_le_length_of_two_mem {α} [DecidableEq α] {a b : α} {l : List α}
    (ha : a ∈ l) (hb : b ∈ l) (hab : a ≠ b) : 2 ≤ l.length := by
  have hb' : b ∈ l.erase a := (List.mem_erase_of_ne (Ne.symm hab)).mpr hb
  have h1 : 0 < (l.erase a).length := List.length_pos.mpr (List.ne_nil_of_mem hb')
  have h2 : (l.erase a).length = l.length - 1 := List.length_erase_of_mem ha
  have h3 : 0 < l.length := List.length_pos.mpr (List.ne_nil_of_mem ha)
  omega

/-- The ambiguity policy on a candidate list of two or more. -/
theorem uniqueOrNone_of_two_le {l : List ScanFile} (h : 2 ≤ l.length) :
    uniqueOrNone l = none := by
  match l, h with
  | r :: r' :: t, _ => rfl

/-- C2 (amended): a raw asset attaches only when compatible with the framed
key — the screenshot ids are equal and locale and device each agree or are
absent on one side — so a raw under a different non-empty device than the
framed entry is never attached; when the framed entry has no device segment
and the same screenshot id exists under two or more distinct raw devices
(and under no device-free raw), no match is made; and an unmatched entry
keeps empty raw paths with status missing_raw when its size is valid. -/
theorem GenerateReview_raw_matching_policy :
    (∀ fk raws r, matchRaw fk raws = some r →
      (rawKeyOf r).screenshotID = fk.screenshotID ∧
      ((rawKeyOf r).locale = "" ∨ fk.locale = "" ∨ (rawKeyOf r).locale = fk.locale) ∧
      ((rawKeyOf r).device = "" ∨ fk.device = "" ∨ (rawKeyOf r).device = fk.device)) ∧
    (∀ raws sid r1 r2, r1 ∈ raws → r2 ∈ raws →
      (rawKeyOf r1).screenshotID = sid → (rawKeyOf r2).screenshotID = sid →
      (rawKeyOf r1).device ≠ (rawKeyOf r2).device →
      (∀ r ∈ raws, (rawKeyOf r).screenshotID = sid → (rawKeyOf r).device ≠ "") →
      matchRaw ⟨"", "", sid⟩ raws = none) ∧
    (∀ rawDir framedDir raws approvals f,
      matchRaw (screenshotKeyOf f.segments) raws = none →
      (mkEntry rawDir framedDir raws approvals f).rawPath = "" ∧
      (mkEntry rawDir framedDir raws approvals f).rawRelative = "" ∧
      ((mkEntry rawDir framedDir raws approvals f).validAppStoreSize = true →
        (mkEntry rawDir framedDir raws approvals f).status = ReviewStatus.missingRaw)) := by
  refine ⟨?_, ?_, ?_⟩
  · intro fk raws r h
    unfold matchRaw at h
    cases hf : raws.filter (fun r => rawKeyOf r == fk) with
    | cons r0 t =>
      rw [hf] at h
      cases h
      have hr0 : r ∈ raws.filter (fun r => rawKeyOf r == fk) := by
        rw [hf]; exact List.mem_cons_self r t
      have : rawKeyOf r = fk := by
        have := (List.mem_filter.mp hr0).2
        simpa using this
      rw [this]
      exact ⟨rfl, Or.inr (Or.inr rfl), Or.inr (Or.inr rfl)⟩
    | nil =>
      rw [hf] at h
      cases hc : raws.filter (compatibleRaw fk) with
      | nil => rw [hc] at h; simp [uniqueOrNone] at h
      | cons x t =>
        cases t with
        | cons y t' => rw [hc] at h; simp [uniqueOrNone] at h
        | nil =>
          rw [hc] at h
          simp only [uniqueOrNone, Option.some.injEq] at h
          subst h
          have hx : x ∈ raws.filter (compatibleRaw fk) := by
            rw [hc]; exact List.mem_cons_self x []
          have := (List.mem_filter.mp hx).2
          simp only [compatibleRaw, Bool.and_eq_true, Bool.or_eq_true, beq_iff_eq] at this
          exact ⟨this.1.1, or_assoc.mp this.1.2, or_assoc.mp this.2⟩
  · intro raws sid r1 r2 h1 h2 k1 k2 hdev hnoflat
    unfold matchRaw
    have hex : raws.filter (fun r => rawKeyOf r == (⟨"", "", sid⟩ : ScreenshotKey)) = [] := by
      rw [List.filter_eq_nil_iff]
      intro r hr hb
      rw [beq_iff_eq] at hb
      have hid : (rawKeyOf r).screenshotID = sid := by rw [hb]
      have hdd : (rawKeyOf r).device ≠ "" := hnoflat r hr hid
      rw [hb] at hdd
      exact hdd rfl
    rw [hex]
    have hc1 : r1 ∈ raws.filter (compatibleRaw ⟨"", "", sid⟩) :=
      List.mem_filter.mpr ⟨h1, by simp [compatibleRaw, k1]⟩
    have hc2 : r2 ∈ raws.filter (compatibleRaw ⟨"", "", sid⟩) :=
      List.mem_filter.mpr ⟨h2, by simp [compatibleRaw, k2]⟩
    have hne : r1 ≠ r2 := fun he => hdev (by rw [he])
    exact uniqueOrNone_of_two_le (two_le_length_of_two_mem hc1 hc2 hne)
  · intro rawDir framedDir raws approvals f h
    refine ⟨by simp [mkEntry, h], by simp [mkEntry, h], ?_⟩
    intro hv
    have hvv : (!(displayTypesFor f.width f.height).isEmpty) = true := hv
    show classifyStatus (matchRaw (screenshotKeyOf f.segments) raws).isSome
        (!(displayTypesFor f.width f.height).isEmpty) = ReviewStatus.missingRaw
    rw [h, hvv]
    rfl

/-- C2 counterexample: on the cross-depth scenario of
`TestGenerateReview_WritesManifestAndHTML` the framed entry keyed
(en, iPhone_Air, home) attaches the raw capture at the raw root, whose key
is ("", "", home): a raw asset is attached without an exact
(locale, device, screenshotID) key match, so "attaches only on an exact
key match" is false. -/
theorem GenerateReview_exact_match_only_counterexample :
    GenerateReview crossDepthInput = Except.ok crossDepthOutput ∧
    crossDepthEntry.rawRelative = "home.png" ∧
    crossDepthEntry.rawRelative ≠ "" ∧
    crossDepthEntry.status = ReviewStatus.ready ∧
    rawKeyOf ⟨["home.png"], 1320, 2868⟩ ≠
      ⟨crossDepthEntry.locale, crossDepthEntry.device, crossDepthEntry.screenshotID⟩ :=
  ⟨by rfl, by rfl, by decide, by rfl, by decide⟩

/-- Witness for C2's amended theorem: the cross-depth attachment is
compatible, the three-device ambiguity yields no match, and an unmatched
framed capture keeps empty raw paths. -/
theorem GenerateReview_raw_matching_policy_witness :
    ((rawKeyOf ⟨["home.png"], 1320, 2868⟩).screenshotID = "home" ∧
      ((rawKeyOf ⟨["home.png"], 1320, 2868⟩).locale = "" ∨ "en" = "" ∨
        (rawKeyOf ⟨["home.png"], 1320, 2868⟩).locale = "en") ∧
      ((rawKeyOf ⟨["home.png"], 1320, 2868⟩).device = "" ∨ "iPhone_Air" = "" ∨
        (rawKeyOf ⟨["home.png"], 1320, 2868⟩).device = "iPhone_Air")) ∧
    matchRaw ⟨"", "", "home"⟩ ambiguousRawScan = none ∧
    (mkEntry "/w/raw" "/w/framed" [] [] ⟨["solo.png"], 1320, 2868⟩).rawRelative = "" :=
  ⟨GenerateReview_raw_matching_policy.1 ⟨"en", "iPhone_Air", "home"⟩
      crossDepthInput.rawListing ⟨["home.png"], 1320, 2868⟩ (by rfl),
   GenerateReview_raw_matching_policy.2.1 ambiguousRawScan "home"
      ⟨["devA", "home.png"], 1320, 2868⟩ ⟨["devB", "home.png"], 1320, 2868⟩
      (by decide) (by decide) (by decide) (by decide) (by decide) (by decide),
   (GenerateReview_raw_matching_policy.2.2 "/w/raw" "/w/framed" [] []
      ⟨["solo.png"], 1320, 2868⟩ (by rfl)).2.1⟩

/-- A permutation between lists of length at most one is an equality. -/
theorem eq_of_perm_length_le_one {α} {l1 l2 : List α} (h : l1.Perm l2)
    (hl : l1.length ≤ 1) : l1 = l2 := by
  match l1, hl with
  | [], _ => exact (h.symm.eq_nil).symm
  | [a], _ => exact (List.Perm.eq_singleton h.symm).symm

/-- A list of raw captures with pairwise-distinct keys that all equal one
key has at most one element. -/
theorem length_le_one_of_nodup_const {l : List ScanFile} (k : ScreenshotKey)
    (hn : (l.map rawKeyOf).Nodup) (ha : ∀ x ∈ l, rawKeyOf x = k) :
    l.length ≤ 1 := by
  match l with
  | [] => simp
  | [a] => simp
  | a :: b :: t =>
    exfalso
    rw [List.map_cons, List.nodup_cons] at hn
    apply hn.1
    rw [List.map_cons]
    have hab : rawKeyOf b = rawKeyOf a := by
      rw [ha a (by simp), ha b (by simp)]
    rw [← hab]
    exact List.mem_cons_self (rawKeyOf b) (t.map rawKeyOf)

/-- The ambiguity policy only looks at the candidate set, not its order. -/
theorem uniqueOrNone_perm {l1 l2 : List ScanFile} (h : l1.Perm l2) :
    uniqueOrNone l1 = uniqueOrNone l2 := by
  match l1, l2, h.length_eq with
  | [], l2, he => rw [h.symm.eq_nil]
  | [a], l2, he => rw [List.Perm.eq_singleton h.symm]
  | a :: b :: t, x :: y :: t2, he => rfl

/-- Raw matching is invariant under reordering the raw scan, provided the
raw keys are pairwise distinct. -/
theorem matchRaw_perm {raws1 raws2 : List ScanFile} (hp : raws1.Perm raws2)
    (hn : (raws1.map rawKeyOf).Nodup) (fk : ScreenshotKey) :
    matchRaw fk raws1 = matchRaw fk raws2 := by
  unfold matchRaw
  have hpf : (raws1.filter (fun r => rawKeyOf r == fk)).Perm
      (raws2.filter (fun r => rawKeyOf r == fk)) := hp.filter _
  have hlen : (raws1.filter (fun r => rawKeyOf r == fk)).length ≤ 1 := by
    apply length_le_one_of_nodup_const fk
    · exact hn.sublist ((List.filter_sublist raws1).map rawKeyOf)
    · intro x hx
      have := (List.mem_filter.mp hx).2
      simpa using this
  have heq : raws1.filter (fun r => rawKeyOf r == fk)
      = raws2.filter (fun r => rawKeyOf r == fk) :=
    eq_of_perm_length_le_one hpf hlen
  rw [← heq]
  cases raws1.filter (fun r => rawKeyOf r == fk) with
  | cons r t => rfl
  | nil => exact uniqueOrNone_perm (hp.filter (compatibleRaw fk))

/-- One framed capture classifies identically against raw scans with equal
matching behavior. -/
theorem mkEntry_raws_congr (rawDir framedDir : String) {raws1 raws2 : List ScanFile}
    (approvals : List String) (f : ScanFile)
    (h : matchRaw (screenshotKeyOf f.segments) raws1
      = matchRaw (screenshotKeyOf f.segments) raws2) :
    mkEntry rawDir framedDir raws1 approvals f
      = mkEntry rawDir framedDir raws2 approvals f := by
  simp only [mkEntry]
  rw [h]

/-- The summary only depends on the entry multiset. -/
theorem summarize_perm {l1 l2 : List ReviewEntry} (h : l1.Perm l2) :
    summarize l1 = summarize l2 := by
  simp [summarize, h.countP_eq, h.length_eq]

/-- C8: rerunning `GenerateReview` on unchanged directories and approvals —
the two framed scans and the two raw scans list the same files, possibly in
a different order, and the raw keys are distinct as they are on a real
directory tree — yields identical summary counts and the same entries up to
order. -/
theorem GenerateReview_deterministic_up_to_order :
    ∀ (rawDir framedDir outputDir : String)
      (framed1 framed2 raws1 raws2 : List ScanFile)
      (approvals : Option (List String)) (out1 out2 : ReviewOutput),
      framed1.Perm framed2 → raws1.Perm raws2 → (raws1.map rawKeyOf).Nodup →
      GenerateReview ⟨rawDir, framedDir, outputDir, some framed1, raws1, approvals⟩
        = Except.ok out1 →
      GenerateReview ⟨rawDir, framedDir, outputDir, some framed2, raws2, approvals⟩
        = Except.ok out2 →
      out1.manifest.summary = out2.manifest.summary ∧
      out1.manifest.entries.Perm out2.manifest.entries := by
  intro rawDir framedDir outputDir f1 f2 r1 r2 approvals out1 out2 hpf hpr hn h1 h2
  simp only [GenerateReview] at h1 h2
  cases h1
  cases h2
  have hfun : ∀ f ∈ f1,
      mkEntry rawDir framedDir r1 (loadApprovalSet approvals) f
        = mkEntry rawDir framedDir r2 (loadApprovalSet approvals) f :=
    fun f _ => mkEntry_raws_congr rawDir framedDir (loadApprovalSet approvals) f
      (matchRaw_perm hpr hn _)
  have hperm : (f1.map (mkEntry rawDir framedDir r1 (loadApprovalSet approvals))).Perm
      (f2.map (mkEntry rawDir framedDir r2 (loadApprovalSet approvals))) := by
    rw [List.map_congr_left hfun]
    exact hpf.map _
  exact ⟨summarize_perm hperm, hperm⟩

/-- Witness for C8 on the two tiny scan orders. -/
theorem GenerateReview_deterministic_up_to_order_witness :
    tinyOutputA.manifest.summary = tinyOutputB.manifest.summary ∧
    tinyOutputA.manifest.entries.Perm tinyOutputB.manifest.entries :=
  GenerateReview_deterministic_up_to_order "/t/raw" "/t/framed" "/t/rev"
    tinyFramedA tinyFramedB [] [] none tinyOutputA tinyOutputB
    (by decide) (by decide) (by decide) (by rfl) (by rfl)

/-- C4: with review configured, a watch cycle regenerates the review
manifest exactly when the external tool invocation succeeded at the process
level and at least one per-item result succeeded; a process-level failure
aborts the cycle without invoking `GenerateReview` (the callback gets a nil
result list and the error); a cycle whose items all failed skips review but
still reports the per-item results. -/
theorem runGeneration_review_condition :
    ∀ (gen : Except String (List WatchCycleResult)) (req : WatchReviewRequest)
      (review : WatchReviewRequest → Except String ReviewOutput),
      ((runGeneration gen (some req) review).reviewCalled = true ↔
        ∃ rs, gen = Except.ok rs ∧ rs.any (fun r => r.success) = true) ∧
      (∀ e, gen = Except.error e →
        (runGeneration gen (some req) review).reviewCalled = false ∧
        (runGeneration gen (some req) review).onCycleResults = none ∧
        (runGeneration gen (some req) review).onCycleError = some e) ∧
      (∀ rs, gen = Except.ok rs → rs.any (fun r => r.success) = false →
        (runGeneration gen (some req) review).reviewCalled = false ∧
        (runGeneration gen (some req) review).onCycleResults = some rs ∧
        (runGeneration gen (some req) review).onCycleError = none) := by
  intro gen req review
  refine ⟨?_, ?_, ?_⟩
  · constructor
    · intro h
      cases gen with
      | error e => simp [runGeneration] at h
      | ok rs =>
        refine ⟨rs, rfl, ?_⟩
        by_contra hna
        rw [Bool.not_eq_true] at hna
        simp [runGeneration, hna] at h
    · rintro ⟨rs, rfl, hany⟩
      cases hrev : review req with
      | error msg => simp [runGeneration, hany, hrev]
      | ok out => simp [runGeneration, hany, hrev]
  · rintro e rfl
    exact ⟨rfl, rfl, rfl⟩
  · rintro rs rfl hna
    simp [runGeneration, hna]

/-- Witness for C4 at a mixed cycle, an all-failed cycle and a failed
process invocation. -/
theorem runGeneration_review_condition_witness :
    (runGeneration (Except.ok mixedCycleResults) (some watchReviewReq)
        succeedingReview).reviewCalled = true ∧
    (runGeneration (Except.error "spawn failed") (some watchReviewReq)
        succeedingReview).onCycleResults = none ∧
    (runGeneration (Except.ok allFailedCycleResults) (some watchReviewReq)
        succeedingReview).reviewCalled = false :=
  ⟨(runGeneration_review_condition (Except.ok mixedCycleResults) watchReviewReq
       succeedingReview).1.mpr ⟨mixedCycleResults, rfl, by decide⟩,
   ((runGeneration_review_condition (Except.error "spawn failed") watchReviewReq
       succeedingReview).2.1 "spawn failed" rfl).2.1,
   ((runGeneration_review_condition (Except.ok allFailedCycleResults) watchReviewReq
       succeedingReview).2.2 allFailedCycleResults rfl (by decide)).1⟩

/-- C10: when the review regeneration fails in a cycle with at least one
successful item, the per-cycle callback still receives the per-item results
with a nil error; the review failure goes to the diagnostic log only. -/
theorem runGeneration_review_failure_not_surfaced :
    ∀ (rs : List WatchCycleResult) (req : WatchReviewRequest)
      (review : WatchReviewRequest → Except String ReviewOutput) (msg : String),
      rs.any (fun r => r.success) = true → review req = Except.error msg →
      (runGeneration (Except.ok rs) (some req) review).onCycleResults = some rs ∧
      (runGeneration (Except.ok rs) (some req) review).onCycleError = none ∧
      (runGeneration (Except.ok rs) (some req) review).reviewCalled = true ∧
      LogLine.reviewFailure msg ∈ (runGeneration (Except.ok rs) (some req) review).logs := by
  intro rs req review msg hany hrev
  refine ⟨rfl, rfl, by simp [runGeneration, hany, hrev], ?_⟩
  simp [runGeneration, hany, hrev]

/-- Witness for C10 on the mixed cycle with a failing review. -/
theorem runGeneration_review_failure_not_surfaced_witness :
    (runGeneration (Except.ok mixedCycleResults) (some watchReviewReq)
        failingReview).onCycleResults = some mixedCycleResults ∧
    (runGeneration (Except.ok mixedCycleResults) (some watchReviewReq)
        failingReview).onCycleError = none ∧
    (runGeneration (Except.ok mixedCycleResults) (some watchReviewReq)
        failingReview).reviewCalled = true ∧
    LogLine.reviewFailure "review broke" ∈
      (runGeneration (Except.ok mixedCycleResults) (some watchReviewReq)
        failingReview).logs :=
  runGeneration_review_failure_not_surfaced mixedCycleResults watchReviewReq
    failingReview "review broke" (by decide) (by rfl)

/-- `isRelevantChange` as one boolean formula. -/
theorem isRelevantChange_eq (event : FsEvent) (configPath : List String)
    (assetDirs : List (List String)) :
    isRelevantChange event configPath assetDirs =
      ((event.op.write || event.op.create || event.op.rename) &&
        (event.name == configPath ||
          (imageExtensions.contains (eventExt event.name) &&
            assetDirs.contains event.name.dropLast))) := by
  simp only [isRelevantChange]
  cases hw : (event.op.write || event.op.create || event.op.rename) <;>
    cases hc : (event.name == configPath) <;>
      cases he : imageExtensions.contains (eventExt event.name) <;>
        simp [hw, hc, he]

/-- C5: a file-system event qualifies if and only if it is a
create/write/rename and either its resolved path is the configuration
file's path, or it has an image extension and its immediate parent
directory is a tracked asset directory; an event below a subdirectory of an
asset directory (parent not itself tracked, path not the config file) never
qualifies. -/
theorem isRelevantChange_iff_spec :
    (∀ event configPath assetDirs,
      isRelevantChange event configPath assetDirs = true ↔
        RelevantChangeSpec event configPath assetDirs) ∧
    (∀ (event : FsEvent) configPath (assetDirs : List (List String))
        (d sub : List String) (file : String),
      d ∈ assetDirs → sub ≠ [] → event.name = (d ++ sub) ++ [file] →
      event.name ≠ configPath → (d ++ sub) ∉ assetDirs →
      isRelevantChange event configPath assetDirs = false) := by
  constructor
  · intro event configPath assetDirs
    rw [isRelevantChange_eq]
    simp only [Bool.and_eq_true, Bool.or_eq_true, beq_iff_eq, RelevantChangeSpec,
      List.elem_eq_mem, decide_eq_true_eq, List.contains]
    tauto
  · intro event configPath assetDirs d sub file hd hsub hname hncfg hnin
    have h1 : (event.name == configPath) = false := by
      rw [beq_eq_false_iff_ne]
      exact hncfg
    have h2 : assetDirs.contains event.name.dropLast = false := by
      rw [hname, List.dropLast_concat, Bool.eq_false_iff]
      intro hcont
      exact hnin (List.elem_iff.mp hcont)
    rw [isRelevantChange_eq, h1, h2]
    simp

/-- Witness for C5: a fresh image in a tracked directory qualifies, an
image one level deeper does not. -/
theorem isRelevantChange_iff_spec_witness :
    isRelevantChange ⟨["shots", "home.png"], ⟨false, true, false, false, false⟩⟩
      ["cfg", "shots.yaml"] [["shots"]] = true ∧
    isRelevantChange ⟨["shots", "sub", "deep.png"], ⟨true, false, false, false, false⟩⟩
      ["cfg", "shots.yaml"] [["shots"]] = false :=
  ⟨(isRelevantChange_iff_spec.1 ⟨["shots", "home.png"], ⟨false, true, false, false, false⟩⟩
      ["cfg", "shots.yaml"] [["shots"]]).mpr
      (by constructor
          · right; left; rfl
          · right
            constructor
            · decide
            · decide),
   isRelevantChange_iff_spec.2 ⟨["shots", "sub", "deep.png"], ⟨true, false, false, false, false⟩⟩
      ["cfg", "shots.yaml"] [["shots"]] ["shots"] ["sub"] "deep.png"
      (by decide) (by decide) (by decide) (by decide) (by decide)⟩

/-- Each coalescer step preserves the invariant. -/
theorem coalescerInv_step {s s' : CoalescerState} (h : CoalescerStep s s')
    (hi : CoalescerInv s) : CoalescerInv s' := by
  obtain ⟨hsum, hpr⟩ := hi
  cases h with
  | triggerBusy h hr => exact ⟨hsum, fun _ => hr⟩
  | triggerFree h hr =>
    rw [hr] at hsum
    have h0 : s.nLoop + s.nRun + s.nCheck = 0 := by simpa using hsum
    refine ⟨?_, fun _ => rfl⟩
    show s.nLoop + 1 + s.nRun + s.nCheck = if (true : Bool) = true then 1 else 0
    simp only [if_pos]
    omega
  | runBegin h =>
    refine ⟨?_, hpr⟩
    show s.nLoop - 1 + (s.nRun + 1) + s.nCheck = if s.running = true then 1 else 0
    rw [← hsum]
    omega
  | runEnd h =>
    refine ⟨?_, hpr⟩
    show s.nLoop + (s.nRun - 1) + (s.nCheck + 1) = if s.running = true then 1 else 0
    rw [← hsum]
    omega
  | checkPending h hp =>
    have hr := hpr hp
    refine ⟨?_, fun _ => hr⟩
    show s.nLoop + 1 + s.nRun + (s.nCheck - 1) = if s.running = true then 1 else 0
    rw [hr] at hsum ⊢
    simp only [if_pos] at hsum ⊢
    omega
  | checkIdle h hp =>
    cases hr : s.running with
    | false =>
      rw [hr] at hsum
      simp only [Bool.false_eq_true, if_false] at hsum
      exfalso
      omega
    | true =>
      rw [hr] at hsum
      simp only [if_pos] at hsum
      refine ⟨?_, fun hf => by simp [hp] at hf⟩
      show s.nLoop + s.nRun + (s.nCheck - 1) = if (false : Bool) = true then 1 else 0
      simp only [Bool.false_eq_true, if_false]
      omega

/-- The invariant holds at every reachable configuration. -/
theorem coalescerInv_reaches {s s' : CoalescerState} (h : CoalescerReaches s s')
    (hi : CoalescerInv s) : CoalescerInv s' := by
  induction h with
  | refl => exact hi
  | tail _ hstep ih => exact coalescerInv_step hstep ih

/-- A step from a configuration with no entering triggers keeps that
property and conserves the potential. -/
theorem coalescer_potential_step {s s' : CoalescerState} (h : CoalescerStep s s')
    (h0 : s.nStart = 0) :
    s'.nStart = 0 ∧ coalescerPotential s' = coalescerPotential s := by
  cases h with
  | triggerBusy h hr => exact absurd h0 (by omega)
  | triggerFree h hr => exact absurd h0 (by omega)
  | runBegin h =>
    refine ⟨h0, ?_⟩
    cases hp : s.pending <;> simp [coalescerPotential, hp] <;> omega
  | runEnd h =>
    refine ⟨h0, ?_⟩
    cases hp : s.pending <;> simp [coalescerPotential, hp]
  | checkPending h hp =>
    refine ⟨h0, ?_⟩
    simp only [coalescerPotential, hp]
    simp
    omega
  | checkIdle h hp =>
    refine ⟨h0, ?_⟩
    simp [coalescerPotential, hp]

/-- Potential conservation along any run of the system once all triggers
have entered. -/
theorem coalescer_potential_reaches {s s' : CoalescerState}
    (h : CoalescerReaches s s') (h0 : s.nStart = 0) :
    s'.nStart = 0 ∧ coalescerPotential s' = coalescerPotential s := by
  induction h with
  | refl => exact ⟨h0, rfl⟩
  | tail _ hstep ih =>
    obtain ⟨ih0, ihp⟩ := ih
    obtain ⟨h0', hp'⟩ := coalescer_potential_step hstep ih0
    exact ⟨h0', by rw [hp', ihp]⟩

/-- Every burst trigger that fires while the cycle is in flight records
itself in the pending flag and returns. -/
theorem coalescer_absorb (c : Nat) :
    ∀ k, CoalescerReaches ⟨k, 0, 1, 0, true, true, c⟩ (afterBurst c) := by
  intro k
  induction k with
  | zero => exact Relation.ReflTransGen.refl
  | succ n ih =>
    exact Relation.ReflTransGen.head
      (CoalescerStep.triggerBusy ⟨n + 1, 0, 1, 0, true, true, c⟩ (Nat.succ_pos n) rfl) ih

/-- A burst of `n ≥ 1` triggers arriving during one in-flight cycle drives
the system to the fully-recorded configuration. -/
theorem coalescer_burst_absorbs {n c : Nat} (h : 0 < n) :
    CoalescerReaches (burstStart n c) (afterBurst c) :=
  Relation.ReflTransGen.head
    (CoalescerStep.triggerBusy (burstStart n c) h rfl)
    (coalescer_absorb c (n - 1))

/-- After the burst is recorded, the runner finishes its cycle, observes
the pending flag, runs exactly one follow-up cycle and goes idle. -/
theorem coalescer_followup (c : Nat) :
    CoalescerReaches (afterBurst c) ⟨0, 0, 0, 0, false, false, c + 1⟩ :=
  Relation.ReflTransGen.head (CoalescerStep.runEnd (afterBurst c) Nat.one_pos)
    (Relation.ReflTransGen.head
      (CoalescerStep.checkPending ⟨0, 0, 0, 1, true, true, c⟩ Nat.one_pos rfl)
      (Relation.ReflTransGen.head
        (CoalescerStep.runBegin ⟨0, 1, 0, 0, true, false, c⟩ Nat.one_pos)
        (Relation.ReflTransGen.head
          (CoalescerStep.runEnd ⟨0, 0, 1, 0, true, false, c + 1⟩ Nat.one_pos)
          (Relation.ReflTransGen.head
            (CoalescerStep.checkIdle ⟨0, 0, 0, 1, true, false, c + 1⟩ Nat.one_pos rfl)
            Relation.ReflTransGen.refl))))

/-- C3: for every sequence of Trigger calls, at most one cycle is in flight
at any reachable configuration; a Trigger arriving while a cycle runs
records itself in the pending flag; no recorded trigger is left over when
all calls have returned; a burst of `n ≥ 1` triggers arriving during one
in-flight cycle reaches the recorded configuration, from which the system
completes with exactly one follow-up cycle, and every configuration
reachable from the recorded one has started at most one cycle beyond the
in-flight one — so a burst produces at most two cycles in total and no
trigger is dropped. -/
theorem generationCoalescer_trigger_properties :
    (∀ n s, CoalescerReaches (coalescerInit n) s → s.nRun ≤ 1) ∧
    (∀ s : CoalescerState, s.running = true → 0 < s.nStart →
      CoalescerStep s (recordPending s) ∧ (recordPending s).pending = true) ∧
    (∀ n s, CoalescerReaches (coalescerInit n) s → CoalescerDone s →
      s.pending = false ∧ s.running = false) ∧
    (∀ n c, 0 < n → CoalescerReaches (burstStart n c) (afterBurst c)) ∧
    (∀ c, CoalescerReaches (afterBurst c) ⟨0, 0, 0, 0, false, false, c + 1⟩) ∧
    (∀ c s, CoalescerReaches (afterBurst c) s → s.cycles ≤ c + 1) := by
  have hinit : ∀ n, CoalescerInv (coalescerInit n) :=
    fun n => ⟨rfl, fun h => by simp [coalescerInit] at h⟩
  refine ⟨?_, ?_, ?_, ?_, ?_, ?_⟩
  · intro n s h
    obtain ⟨hsum, _⟩ := coalescerInv_reaches h (hinit n)
    cases hr : s.running <;> rw [hr] at hsum <;> simp at hsum <;> omega
  · intro s hr h
    exact ⟨CoalescerStep.triggerBusy s h hr, rfl⟩
  · intro n s h hd
    obtain ⟨hsum, hpr⟩ := coalescerInv_reaches h (hinit n)
    obtain ⟨_, h2, h3, h4⟩ := hd
    rw [h2, h3, h4] at hsum
    have hrun : s.running = false := by
      cases hr : s.running
      · rfl
      · rw [hr] at hsum
        simp at hsum
    have hpend : s.pending = false := by
      cases hp : s.pending
      · rfl
      · have := hpr hp
        rw [this] at hrun
        cases hrun
    exact ⟨hpend, hrun⟩
  · intro n c h
    exact coalescer_burst_absorbs h
  · intro c
    exact coalescer_followup c
  · intro c s h
    obtain ⟨h0, hp⟩ := coalescer_potential_reaches h rfl
    have hval : coalescerPotential (afterBurst c) = c + 1 := by
      simp [coalescerPotential, afterBurst]
    have hb : s.cycles ≤ coalescerPotential s := by
      cases hsp : s.pending <;> simp [coalescerPotential, hsp] <;> omega
    omega

/-- Witness for C3 at concrete configurations: the initial system, a
recording trigger, the empty done system, a two-trigger burst, the
follow-up trace, and the cycle bound at the recorded configuration. -/
theorem generationCoalescer_trigger_properties_witness :
    (coalescerInit 3).nRun ≤ 1 ∧
    (CoalescerStep ⟨2, 0, 1, 0, true, false, 1⟩
        (recordPending ⟨2, 0, 1, 0, true, false, 1⟩) ∧
      (recordPending ⟨2, 0, 1, 0, true, false, 1⟩).pending = true) ∧
    ((coalescerInit 0).pending = false ∧ (coalescerInit 0).running = false) ∧
    CoalescerReaches (burstStart 2 1) (afterBurst 1) ∧
    CoalescerReaches (afterBurst 1) ⟨0, 0, 0, 0, false, false, 2⟩ ∧
    (afterBurst 1).cycles ≤ 2 :=
  ⟨generationCoalescer_trigger_properties.1 3 (coalescerInit 3)
      Relation.ReflTransGen.refl,
   generationCoalescer_trigger_properties.2.1 ⟨2, 0, 1, 0, true, false, 1⟩ rfl
      (by decide),
   generationCoalescer_trigger_properties.2.2.1 0 (coalescerInit 0)
      Relation.ReflTransGen.refl ⟨rfl, rfl, rfl, rfl⟩,
   generationCoalescer_trigger_properties.2.2.2.1 2 1 (by decide),
   generationCoalescer_trigger_properties.2.2.2.2.1 1,
   generationCoalescer_trigger_properties.2.2.2.2.2 1 (afterBurst 1)
      Relation.ReflTransGen.refl⟩
